import Mathlib

/-
Verification of the ai-new-tracker repository core algorithms.

Shallow embedding conventions:
- Python floats are modelled as real numbers (or rationals where the code
  only performs field arithmetic), with explicit clamping where the code
  clamps; machine floating-point rounding is not modelled.
- Python strings are modelled as Lean String; a None content field is
  modelled as the empty string (Python truthiness identifies the two).
- Database tables are modelled as lists of records passed explicitly to
  the functions that query them; filters are accounted for by quantifying
  over arbitrary (post-filter) table contents.
- Exception-catching code paths that merely skip an item are modelled with
  Option results.
-/

namespace AiTracker

/-! ## Collector upsert (src/collector/service.py, _save_or_update_article_and_get_id)

The content-update decision for an existing article row.  The Python code is:

    content = article.get("content", "")
    if content and content.strip():
        if not existing.content or (existing.content and len(content) > len(existing.content)):
            existing.content = content

Python str.strip() truthiness (the string contains some non-whitespace
character) is modelled by pythonStripNonempty on the character list. -/
def pythonStripNonempty (s : String) : Bool :=
  s.data.any (fun c => !c.isWhitespace)

def saveOrUpdateContent (existingContent newContent : String) : String :=
  if newContent ≠ "" ∧ pythonStripNonempty newContent = true then
    if existingContent = "" ∨ (existingContent ≠ "" ∧ newContent.length > existingContent.length) then
      newContent
    else existingContent
  else existingContent

/-! ## Reddit virality score
(src/backend/app/services/social_media/reddit_collector.py, _calculate_viral_score)

The code mutates one running base_score variable in three stages; the stages
are modelled as three functions composed in redditViralScore.  The function
reads the current wall-clock time, passed here as nowTs.  Python float
truthiness of created_utc is modelled as createdUtc being nonzero. -/
def redditBase (ups : Int) : ℚ :=
  if ups ≤ 0 then 0
  else if ups < 100 then 3
  else if ups < 500 then 5
  else if ups < 1000 then 7
  else if ups < 5000 then 8
  else 9

def redditCommentAdjust (s : ℚ) (numComments : Int) : ℚ :=
  if numComments > 100 then s + 1/2
  else if numComments > 500 then s + 1
  else s

def redditRecencyAdjust (s : ℚ) (createdUtc nowTs : ℚ) : ℚ :=
  if createdUtc ≠ 0 then
    if (nowTs - createdUtc) / 3600 < 6 then s + 1/2
    else if (nowTs - createdUtc) / 3600 < 24 then s + 3/10
    else s
  else s

def redditViralScore (ups numComments : Int) (createdUtc nowTs : ℚ) : ℚ :=
  min (max (redditRecencyAdjust (redditCommentAdjust (redditBase ups) numComments) createdUtc nowTs) 0) 10

/-! ## TikTok virality score
(src/backend/app/services/social_media/tiktok_collector.py, _calculate_viral_score)

Python round(x, 2) uses round-half-to-even; modelled exactly on rationals. -/
def roundHalfEven (y : ℚ) : Int :=
  if y - ⌊y⌋ = 1/2 then (if ⌊y⌋ % 2 = 0 then ⌊y⌋ else ⌊y⌋ + 1) else round y

def roundTo2 (x : ℚ) : ℚ := (roundHalfEven (x * 100) : ℚ) / 100

def tiktokViralScore (playCount followerCount likeCount commentCount shareCount : Int) : ℚ :=
  if playCount < 100000 ∨ followerCount < 100 then 0
  else if playCount = 0 ∨ followerCount = 0 then 0
  else roundTo2 ((playCount : ℚ) / (followerCount : ℚ) * 3
    + (likeCount : ℚ) / (playCount : ℚ) * 1
    + (commentCount : ℚ) / (playCount : ℚ) * 5
    + (shareCount : ℚ) / (playCount : ℚ) * 10)

/-! ## RAG vector arithmetic
(src/backend/app/services/rag/rag_service.py, _cosine_similarity)

np.dot on equal-length vectors is the sum of pairwise products, np.linalg.norm
is the square root of the sum of squares.  The Python code is:

    dot_product = np.dot(v1, v2)
    norm1 = np.linalg.norm(v1)
    norm2 = np.linalg.norm(v2)
    if norm1 == 0 or norm2 == 0:
        return 0.0
    cosine_sim = dot_product / (norm1 * norm2)
    similarity = (cosine_sim + 1.0) / 2.0
    similarity = max(0.0, min(1.0, similarity))
    return float(similarity)
-/
def normSq (v : List ℝ) : ℝ := (v.map (fun x => x * x)).sum

def dotProduct (v1 v2 : List ℝ) : ℝ := (List.zipWith (· * ·) v1 v2).sum

noncomputable def cosineSimilarity (v1 v2 : List ℝ) : ℝ :=
  if Real.sqrt (normSq v1) = 0 ∨ Real.sqrt (normSq v2) = 0 then 0
  else max 0 (min 1
    ((dotProduct v1 v2 / (Real.sqrt (normSq v1) * Real.sqrt (normSq v2)) + 1) / 2))

/-! ## RAG search pipeline
(src/backend/app/services/rag/rag_service.py, search_articles,
_search_with_sqlite_vec, _search_with_python)

SearchResult keeps the fields of the returned dictionaries that the claims
are about (article id, similarity, favorited flag); the presentation-only
fields (title, url, summary, tags, and so on) are carried along unchanged by
the code and are omitted.  VecRow is one row of the sqlite-vec KNN join for
the current query and filters (a NULL distance is Option.none).  The
database tables consulted by the two search paths are collected in RagDb;
quantifying over its contents covers every corpus and every filter set. -/
structure SearchResult where
  id : Int
  similarity : ℝ
  isFavorited : Bool

structure VecRow where
  articleId : Int
  distance : Option ℝ
  isFavorited : Bool

structure EmbeddingRecord where
  articleId : Int
  embedding : List ℝ

structure ArticleRow where
  id : Int
  isFavorited : Bool

structure RagDb where
  vecCount : Nat
  allEmbeddings : List EmbeddingRecord
  knnRows : List VecRow
  corpus : List (EmbeddingRecord × ArticleRow)

/-- Distance-to-similarity conversion of the fast path: a NULL distance maps
to 0; a distance at most 2.0 is treated as a cosine distance, giving
1 - distance clamped to the unit interval; a larger distance is squashed by
1/(1+distance). -/
noncomputable def fastRowSimilarity : Option ℝ → ℝ
  | none => 0
  | some d => if d ≤ 2 then max 0 (min 1 (1 - d)) else 1 / (1 + d)

/-- Flat +0.2 additive boost for favorited articles, clamped above at 1. -/
noncomputable def favoriteBoost (isFav : Bool) (s : ℝ) : ℝ :=
  if isFav then min 1 (s + 0.2) else s

noncomputable def fastSearchResults (rows : List VecRow) : List SearchResult :=
  rows.map (fun r =>
    { id := r.articleId,
      similarity := favoriteBoost r.isFavorited (fastRowSimilarity r.distance),
      isFavorited := r.isFavorited })

/-- One step of the de-duplication loop: a result whose article id was not
seen yet is appended; otherwise the already-kept result with the same id is
replaced in place when the new similarity is strictly higher. -/
noncomputable def dedupStep (acc : List SearchResult) (r : SearchResult) : List SearchResult :=
  if acc.any (fun x => x.id == r.id) then
    acc.map (fun x => if x.id = r.id ∧ x.similarity < r.similarity then r else x)
  else acc ++ [r]

noncomputable def dedupResults (l : List SearchResult) : List SearchResult :=
  l.foldl dedupStep []

/-- Python list.sort(key=similarity, reverse=True) is a stable descending
sort by similarity, modelled by Mathlib insertion sort under the relation
"left similarity is at least right similarity". -/
noncomputable def sortBySimilarity (l : List SearchResult) : List SearchResult :=
  l.insertionSort (fun a b => b.similarity ≤ a.similarity)

/-- Fast-path post-processing of the fetched rows: convert distances and
apply the boost, de-duplicate, sort by descending similarity, truncate. -/
noncomputable def processFastRows (rows : List VecRow) (topK : Nat) : List SearchResult :=
  (sortBySimilarity (dedupResults (fastSearchResults rows))).take topK

/-- Slow-path treatment of one corpus entry: a row with an empty or NULL
embedding is skipped, a row whose dimension differs from the query dimension
is skipped, otherwise the boosted cosine similarity is computed. -/
noncomputable def slowEntryResult (q : List ℝ) (p : EmbeddingRecord × ArticleRow) :
    Option SearchResult :=
  if p.1.embedding = [] then none
  else if p.1.embedding.length ≠ q.length then none
  else some
    { id := p.2.id,
      similarity := favoriteBoost p.2.isFavorited (cosineSimilarity q p.1.embedding),
      isFavorited := p.2.isFavorited }

noncomputable def slowRawResults (db : RagDb) (q : List ℝ) : List SearchResult :=
  db.corpus.filterMap (slowEntryResult q)

/-- The slow path: empty corpus returns []; otherwise the raw similarity
list is sorted, truncated to topK, de-duplicated, sorted again and truncated
again, in that order (truncation happens before de-duplication). -/
noncomputable def searchWithPython (db : RagDb) (q : List ℝ) (topK : Nat) : List SearchResult :=
  if db.corpus.isEmpty then []
  else (sortBySimilarity (dedupResults
    ((sortBySimilarity (slowRawResults db q)).take topK))).take topK

/-- The fast path: falls back to the slow path when the vec_embeddings table
is empty, when no sample stored embedding exists or it is empty, or when the
sampled dimension differs from the query dimension; otherwise processes the
KNN rows.  The try/except wrapper that also falls back on a database error
is not modelled (the embedded functions are total). -/
noncomputable def searchWithSqliteVec (db : RagDb) (q : List ℝ) (topK : Nat) : List SearchResult :=
  if db.vecCount = 0 then searchWithPython db q topK
  else
    match db.allEmbeddings.head? with
    | none => searchWithPython db q topK
    | some sample =>
      if sample.embedding = [] then searchWithPython db q topK
      else if q.length ≠ sample.embedding.length then searchWithPython db q topK
      else processFastRows db.knnRows topK

/-- The backend-selection flag probed once at engine construction; the
search methods read it and never assign it, which the state-passing form
makes explicit by returning the state unchanged. -/
structure RagState where
  useSqliteVec : Bool

noncomputable def searchArticles (s : RagState) (db : RagDb) (q : List ℝ) (topK : Nat) :
    List SearchResult × RagState :=
  if q = [] then ([], s)
  else if s.useSqliteVec then (searchWithSqliteVec db q topK, s)
  else (searchWithPython db q topK, s)

/-- Modelled from the spec: the final list is the first topK elements after
de-duplication, boosting and sorting have all been applied to the raw
slow-path results (de-duplication before truncation). -/
noncomputable def specDedupThenTruncate (db : RagDb) (q : List ℝ) (topK : Nat) : List SearchResult :=
  (sortBySimilarity (dedupResults (slowRawResults db q))).take topK

/-- The database with the slow-path corpus restricted to entries whose
embedding is present and matches the query dimension. -/
def matchingFilter (q : List ℝ) (p : EmbeddingRecord × ArticleRow) : Bool :=
  !p.1.embedding.isEmpty && p.1.embedding.length == q.length

def matchingCorpus (db : RagDb) (q : List ℝ) : RagDb :=
  { vecCount := db.vecCount, allEmbeddings := db.allEmbeddings,
    knnRows := db.knnRows, corpus := db.corpus.filter (matchingFilter q) }

/-- Descending order by similarity. -/
def SortedBySim (l : List SearchResult) : Prop :=
  l.Sorted (fun a b => b.similarity ≤ a.similarity)

/-- Invariant of the de-duplication loop relating the accumulator to the
processed prefix: every kept result comes from the prefix, every processed
id is represented, every kept result carries the maximal similarity seen
for its id, and kept ids are pairwise distinct. -/
def DedupInv (processed acc : List SearchResult) : Prop :=
  (∀ x ∈ acc, x ∈ processed) ∧
  (∀ y ∈ processed, ∃ x ∈ acc, x.id = y.id) ∧
  (∀ x ∈ acc, ∀ y ∈ processed, y.id = x.id → y.similarity ≤ x.similarity) ∧
  (acc.map SearchResult.id).Nodup

/-! ## Start-collection endpoint
(src/backend/app/api/v1/endpoints/collection.py, start_collection, _task_lock)

The endpoint executes three steps, in order:
 1. acquire _task_lock, check whether the _running_tasks dict is nonempty,
    release the lock; a nonempty dict raises HTTP 400 (rejection);
 2. create a CollectionTask row with status "running" and commit it;
 3. acquire _task_lock, register the new task id in _running_tasks, release
    the lock.
Each lock-protected step is one atomic action of the model; the database
commit of step 2 happens OUTSIDE any lock-protected region, exactly as in
the code.  Two concurrent calls are modelled as two programs over the shared
global state, driven by an explicit interleaving schedule. -/
structure CollGlobal where
  runningTasks : List Nat
  dbTasks : List (Nat × String)
  nextId : Nat

structure CollCall where
  pc : Nat
  rejected : Bool
  taskId : Option Nat

def stepCall (g : CollGlobal) (c : CollCall) : CollGlobal × CollCall :=
  match c.pc with
  | 0 =>
    if g.runningTasks.isEmpty then (g, { pc := 1, rejected := c.rejected, taskId := c.taskId })
    else (g, { pc := 3, rejected := true, taskId := c.taskId })
  | 1 =>
    ({ runningTasks := g.runningTasks, dbTasks := g.dbTasks ++ [(g.nextId, "running")],
       nextId := g.nextId + 1 },
     { pc := 2, rejected := c.rejected, taskId := some g.nextId })
  | 2 =>
    ({ runningTasks := g.runningTasks ++ [c.taskId.getD 0], dbTasks := g.dbTasks,
       nextId := g.nextId },
     { pc := 3, rejected := c.rejected, taskId := c.taskId })
  | _ => (g, c)

structure TwoCalls where
  g : CollGlobal
  c0 : CollCall
  c1 : CollCall

/-- One scheduler step: run one atomic action of the chosen call. -/
def schedStep (s : TwoCalls) (who : Bool) : TwoCalls :=
  if who then
    { g := (stepCall s.g s.c1).1, c0 := s.c0, c1 := (stepCall s.g s.c1).2 }
  else
    { g := (stepCall s.g s.c0).1, c0 := (stepCall s.g s.c0).2, c1 := s.c1 }

def runSched (init : TwoCalls) (sched : List Bool) : TwoCalls :=
  sched.foldl schedStep init

def initTwoCalls : TwoCalls :=
  { g := { runningTasks := [], dbTasks := [], nextId := 0 },
    c0 := { pc := 0, rejected := false, taskId := none },
    c1 := { pc := 0, rejected := false, taskId := none } }

def runningCount (g : CollGlobal) : Nat :=
  (g.dbTasks.filter (fun p => p.2 == "running")).length

/-! ## Enrichment by article ids
(src/collector/service.py, _analyze_articles_by_ids)

Each id is handled in its own unit of work: re-fetch the row by id, skip if
missing or already processed, call the external analyzer, write the
returned fields, set is_processed and commit; an analyzer exception rolls
the unit of work back (modelled as Option.none, no state change, not
counted).  The thread pool dispatches the per-id closures; the model is one
sequential linearization of those per-id units of work, each reading the
store state left by the previous ones. -/
structure AnalysisInput where
  title : String
  content : String
  source : String
  publishedAt : Option String

structure AnalysisResult where
  summary : Option String
  topics : Option String
  tags : Option String
  importance : Option String
  targetAudience : Option String
  keyPoints : Option String

structure ArticleRec where
  title : String
  content : String
  source : String
  publishedAt : Option String
  isProcessed : Bool
  summary : Option String
  topics : Option String
  tags : Option String
  importance : Option String
  targetAudience : Option String
  keyPoints : Option String

def analysisInput (a : ArticleRec) : AnalysisInput :=
  { title := a.title, content := a.content, source := a.source, publishedAt := a.publishedAt }

def applyAnalysis (a : ArticleRec) (r : AnalysisResult) : ArticleRec :=
  { title := a.title, content := a.content, source := a.source,
    publishedAt := a.publishedAt, isProcessed := true, summary := r.summary,
    topics := r.topics, tags := r.tags, importance := r.importance,
    targetAudience := r.targetAudience, keyPoints := r.keyPoints }

def lookupArticle : List (Nat × ArticleRec) → Nat → Option ArticleRec
  | [], _ => none
  | p :: rest, i => if p.1 == i then some p.2 else lookupArticle rest i

def updateArticle : List (Nat × ArticleRec) → Nat → ArticleRec → List (Nat × ArticleRec)
  | [], _, _ => []
  | p :: rest, i, a => if p.1 == i then (i, a) :: rest else p :: updateArticle rest i a

def analyzeSingleById (f : AnalysisInput → Option AnalysisResult)
    (store : List (Nat × ArticleRec)) (i : Nat) : List (Nat × ArticleRec) × Bool :=
  match lookupArticle store i with
  | none => (store, false)
  | some a =>
    if a.isProcessed then (store, false)
    else
      match f (analysisInput a) with
      | none => (store, false)
      | some r => (updateArticle store i (applyAnalysis a r), true)

def analyzeFoldStep (f : AnalysisInput → Option AnalysisResult)
    (acc : List (Nat × ArticleRec) × Nat) (i : Nat) : List (Nat × ArticleRec) × Nat :=
  ((analyzeSingleById f acc.1 i).1,
   if (analyzeSingleById f acc.1 i).2 then acc.2 + 1 else acc.2)

def analyzeArticlesByIds (f : AnalysisInput → Option AnalysisResult)
    (store : List (Nat × ArticleRec)) (ids : List Nat) : List (Nat × ArticleRec) × Nat :=
  ids.foldl (analyzeFoldStep f) (store, 0)

def processedCount (store : List (Nat × ArticleRec)) : Nat :=
  (store.filter (fun p => p.2.isProcessed)).length

end AiTracker

namespace AiTracker

/-! ## Helper evaluations and lemmas shared between theorems -/

lemma tiktok_eval_doc_input : tiktokViralScore 150000 200 5000 500 50 = 225005/100 := by
  have hbranch : tiktokViralScore 150000 200 5000 500 50 =
      roundTo2 (((150000 : Int) : ℚ) / ((200 : Int) : ℚ) * 3
        + ((5000 : Int) : ℚ) / ((150000 : Int) : ℚ) * 1
        + ((500 : Int) : ℚ) / ((150000 : Int) : ℚ) * 5
        + ((50 : Int) : ℚ) / ((150000 : Int) : ℚ) * 10) := by
    unfold tiktokViralScore
    rw [if_neg (by decide), if_neg (by decide)]
  have harg : (((150000 : Int) : ℚ) / ((200 : Int) : ℚ) * 3
        + ((5000 : Int) : ℚ) / ((150000 : Int) : ℚ) * 1
        + ((500 : Int) : ℚ) / ((150000 : Int) : ℚ) * 5
        + ((50 : Int) : ℚ) / ((150000 : Int) : ℚ) * 10) = 675016/300 := by
    norm_num
  rw [hbranch, harg]
  have hx : ((675016 : ℚ)/300) * 100 = 675016/3 := by norm_num
  unfold roundTo2 roundHalfEven
  rw [hx]
  have hfl : ⌊(675016/3 : ℚ)⌋ = 225005 := by
    rw [Int.floor_eq_iff]
    constructor <;> norm_num
  have hfl2 : ⌊(675016/3 + 1/2 : ℚ)⌋ = 225005 := by
    rw [Int.floor_eq_iff]
    constructor <;> norm_num
  rw [hfl, if_neg (by norm_num), round_eq, hfl2]
  norm_num

end AiTracker

namespace AiTracker

/-! ## Theorems for claim C1 (content monotonicity of upsert) -/

/-- C1 counterexample: the claim states that updating with a non-empty string
at least as long as the existing content replaces it.  The code keeps the
existing content when the new content has merely equal length: updating the
stored content "ab" with the non-empty, equally long "cd" leaves "ab" in place. -/
theorem c1_counterexample :
    saveOrUpdateContent "ab" "cd" = "ab" ∧
    ("cd" : String) ≠ "" ∧ ("ab" : String).length ≤ ("cd" : String).length := by
  refine ⟨by decide, by decide, by decide⟩

/-- C1 amended: the update operation replaces the stored content only if the
new content is non-blank (non-empty after stripping whitespace) and either
the existing content is empty or the new content is strictly longer;
updating with a shorter, equal-length, empty or whitespace-only string never
replaces existing non-empty content, and updating with a non-blank strictly
longer string does replace it. -/
theorem c1_amended (e n : String) :
    (saveOrUpdateContent e n = n ∨ saveOrUpdateContent e n = e) ∧
    (n ≠ "" → pythonStripNonempty n = true → n.length > e.length →
      saveOrUpdateContent e n = n) ∧
    (e ≠ "" → n.length ≤ e.length → saveOrUpdateContent e n = e) ∧
    ((n = "" ∨ pythonStripNonempty n = false) → saveOrUpdateContent e n = e) := by
  unfold saveOrUpdateContent
  refine ⟨?_, ?_, ?_, ?_⟩
  · split
    · split
      · exact Or.inl rfl
      · exact Or.inr rfl
    · exact Or.inr rfl
  · intro hn ht hlen
    rw [if_pos ⟨hn, ht⟩]
    by_cases he : e = ""
    · rw [if_pos (Or.inl he)]
    · rw [if_pos (Or.inr ⟨he, hlen⟩)]
  · intro he hlen
    split
    · rw [if_neg]
      push_neg
      refine ⟨he, fun _ => ?_⟩
      omega
    · rfl
  · intro h
    rw [if_neg]
    rintro ⟨hc1, hc2⟩
    rcases h with h | h
    · exact hc1 h
    · rw [h] at hc2
      exact Bool.false_ne_true hc2

/-- C1 witness: for existing content "ab" and new content "abcd" (non-blank,
strictly longer), the amended theorem applies and the content is replaced. -/
theorem c1_witness : saveOrUpdateContent "ab" "abcd" = "abcd" :=
  (c1_amended "ab" "abcd").2.1 (by decide) (by decide) (by decide)

/-! ## Theorems for claim C7 (Reddit virality score) -/

/-- C7: the code evaluated at the failing input: a post with 5000 upvotes and
600 comments (created_utc zero, so no recency bonus) scores 9 + 0.5 = 9.5.
The claim says a post whose comments exceed 500 receives a +1.0 comment
bonus, which would give 10; the branch adding 1.0 is unreachable because the
+0.5 branch for more than 100 comments is tested first. -/
theorem c7_code_bug_eval :
    redditViralScore 5000 600 0 1700000000 = 19/2 ∧ (19/2 : ℚ) ≠ 10 := by
  constructor
  · unfold redditViralScore redditBase redditCommentAdjust redditRecencyAdjust
    norm_num
  · norm_num

/-! ## Theorems for claim C8 (TikTok virality score at the documented input) -/

/-- C8 counterexample: at 150000 views, 200 followers, 5000 likes, 500
comments and 50 shares, the computed score is 2250.05, not the value
2266.68 stated by the claim. -/
theorem c8_counterexample :
    tiktokViralScore 150000 200 5000 500 50 ≠ 226668/100 := by
  rw [tiktok_eval_doc_input]
  norm_num

/-- C8 amended: at 150000 views, 200 followers, 5000 likes, 500 comments and
50 shares (above both gates), the score equals the documented formula
(150000/200)*3 + (5000/150000)*1 + (500/150000)*5 + (50/150000)*10
= 2250.0533..., which rounds to 2250.05 at 2 decimals. -/
theorem c8_amended :
    tiktokViralScore 150000 200 5000 500 50 =
      roundTo2 ((150000/200 : ℚ) * 3 + (5000/150000 : ℚ) * 1 +
        (500/150000 : ℚ) * 5 + (50/150000 : ℚ) * 10) ∧
    tiktokViralScore 150000 200 5000 500 50 = 225005/100 := by
  constructor
  · rw [tiktok_eval_doc_input]
    have harg : ((150000/200 : ℚ) * 3 + (5000/150000 : ℚ) * 1 +
        (500/150000 : ℚ) * 5 + (50/150000 : ℚ) * 10) = 675016/300 := by norm_num
    rw [harg]
    have hx : ((675016 : ℚ)/300) * 100 = 675016/3 := by norm_num
    unfold roundTo2 roundHalfEven
    rw [hx]
    have hfl : ⌊(675016/3 : ℚ)⌋ = 225005 := by
      rw [Int.floor_eq_iff]
      constructor <;> norm_num
    have hfl2 : ⌊(675016/3 + 1/2 : ℚ)⌋ = 225005 := by
      rw [Int.floor_eq_iff]
      constructor <;> norm_num
    rw [hfl, if_neg (by norm_num), round_eq, hfl2]
    norm_num
  · exact tiktok_eval_doc_input

/-! ## Vector arithmetic lemmas -/

lemma normSq_nonneg (v : List ℝ) : 0 ≤ normSq v := by
  induction v with
  | nil => simp [normSq]
  | cons x xs ih =>
    simp only [normSq, List.map_cons, List.sum_cons] at *
    nlinarith [mul_self_nonneg x]

/-- Cauchy-Schwarz for the list dot product against the list norms. -/
lemma abs_dot_le (v1 v2 : List ℝ) :
    |dotProduct v1 v2| ≤ Real.sqrt (normSq v1) * Real.sqrt (normSq v2) := by
  induction v1 generalizing v2 with
  | nil =>
    simp only [dotProduct, List.zipWith_nil_left, List.sum_nil, abs_zero]
    exact mul_nonneg (Real.sqrt_nonneg _) (Real.sqrt_nonneg _)
  | cons x xs ih =>
    cases v2 with
    | nil =>
      simp only [dotProduct, List.zipWith_nil_right, List.sum_nil, abs_zero]
      exact mul_nonneg (Real.sqrt_nonneg _) (Real.sqrt_nonneg _)
    | cons y ys =>
      have hxs := normSq_nonneg xs
      have hys := normSq_nonneg ys
      have ha : (0:ℝ) ≤ Real.sqrt (normSq xs) := Real.sqrt_nonneg _
      have hb : (0:ℝ) ≤ Real.sqrt (normSq ys) := Real.sqrt_nonneg _
      have ha2 : Real.sqrt (normSq xs) ^ 2 = normSq xs := Real.sq_sqrt hxs
      have hb2 : Real.sqrt (normSq ys) ^ 2 = normSq ys := Real.sq_sqrt hys
      have hdot : dotProduct (x :: xs) (y :: ys) = x * y + dotProduct xs ys := by
        simp [dotProduct]
      have hn1 : normSq (x :: xs) = x * x + normSq xs := by simp [normSq]
      have hn2 : normSq (y :: ys) = y * y + normSq ys := by simp [normSq]
      rw [hdot, hn1, hn2]
      have step1 : |x * y + dotProduct xs ys| ≤
          |x| * |y| + Real.sqrt (normSq xs) * Real.sqrt (normSq ys) := by
        calc |x * y + dotProduct xs ys| ≤ |x * y| + |dotProduct xs ys| := abs_add _ _
          _ ≤ |x| * |y| + Real.sqrt (normSq xs) * Real.sqrt (normSq ys) := by
            rw [abs_mul]
            exact add_le_add le_rfl (ih ys)
      refine le_trans step1 ?_
      have hprod : Real.sqrt (x * x + normSq xs) * Real.sqrt (y * y + normSq ys) =
          Real.sqrt ((x * x + normSq xs) * (y * y + normSq ys)) := by
        rw [← Real.sqrt_mul (by nlinarith [mul_self_nonneg x])]
      rw [hprod]
      rw [Real.le_sqrt (by positivity) (by nlinarith [mul_self_nonneg x, mul_self_nonneg y])]
      have hsq : (|x| * |y| + Real.sqrt (normSq xs) * Real.sqrt (normSq ys)) ^ 2 =
          x ^ 2 * y ^ 2 + 2 * |x| * |y| * (Real.sqrt (normSq xs) * Real.sqrt (normSq ys))
            + normSq xs * normSq ys := by
        have hx2 : |x| ^ 2 = x ^ 2 := sq_abs x
        have hy2 : |y| ^ 2 = y ^ 2 := sq_abs y
        nlinarith [hx2, hy2, ha2, hb2]
      rw [hsq]
      nlinarith [sq_nonneg (|x| * Real.sqrt (normSq ys) - Real.sqrt (normSq xs) * |y|),
        sq_abs x, sq_abs y, abs_nonneg x, abs_nonneg y, mul_nonneg ha hb,
        mul_nonneg (abs_nonneg x) (abs_nonneg y)]

lemma cosineSimilarity_bounds (v1 v2 : List ℝ) :
    0 ≤ cosineSimilarity v1 v2 ∧ cosineSimilarity v1 v2 ≤ 1 := by
  unfold cosineSimilarity
  split
  · norm_num
  · constructor
    · exact le_max_left 0 _
    · exact max_le (by norm_num) (min_le_left 1 _)

end AiTracker

namespace AiTracker

/-! ## Theorems for claim C4 (slow-path similarity formula) -/

/-- C4: for equal-dimension vectors with nonzero norms, the slow-path
similarity equals (cosine + 1)/2 with cosine the normalized dot product; the
clamp to the unit interval does not change this value because the cosine
lies in the closed interval from -1 to 1 by Cauchy-Schwarz, and the result
lies in [0, 1]. -/
theorem c4_slow_path_formula (v1 v2 : List ℝ) (_hlen : v1.length = v2.length)
    (h1 : Real.sqrt (normSq v1) ≠ 0) (h2 : Real.sqrt (normSq v2) ≠ 0) :
    cosineSimilarity v1 v2 =
      (dotProduct v1 v2 / (Real.sqrt (normSq v1) * Real.sqrt (normSq v2)) + 1) / 2 ∧
    0 ≤ cosineSimilarity v1 v2 ∧ cosineSimilarity v1 v2 ≤ 1 := by
  have hpos1 : 0 < Real.sqrt (normSq v1) :=
    lt_of_le_of_ne (Real.sqrt_nonneg _) (Ne.symm h1)
  have hpos2 : 0 < Real.sqrt (normSq v2) :=
    lt_of_le_of_ne (Real.sqrt_nonneg _) (Ne.symm h2)
  have hprod : 0 < Real.sqrt (normSq v1) * Real.sqrt (normSq v2) := mul_pos hpos1 hpos2
  have hcs := abs_dot_le v1 v2
  have hcos : |dotProduct v1 v2 / (Real.sqrt (normSq v1) * Real.sqrt (normSq v2))| ≤ 1 := by
    rw [abs_div, abs_of_pos hprod]
    exact div_le_one_of_le₀ hcs (le_of_lt hprod)
  obtain ⟨hcosl, hcosr⟩ := abs_le.mp hcos
  have heq : cosineSimilarity v1 v2 =
      (dotProduct v1 v2 / (Real.sqrt (normSq v1) * Real.sqrt (normSq v2)) + 1) / 2 := by
    unfold cosineSimilarity
    rw [if_neg (by push_neg; exact ⟨h1, h2⟩)]
    rw [min_eq_right (by linarith), max_eq_right (by linarith)]
  exact ⟨heq, heq ▸ by linarith, heq ▸ by linarith⟩

/-- C4 witness: for the vector with entries 3 and 4 (norm 5) against itself,
the hypotheses hold and the formula applies. -/
theorem c4_witness :
    cosineSimilarity [3, 4] [3, 4] =
      (dotProduct [3, 4] [3, 4] /
        (Real.sqrt (normSq [3, 4]) * Real.sqrt (normSq [3, 4])) + 1) / 2 := by
  have hn : normSq [3, 4] = 25 := by
    simp only [normSq, List.map_cons, List.map_nil, List.sum_cons, List.sum_nil]
    norm_num
  have hne : Real.sqrt (normSq [3, 4]) ≠ 0 := by
    rw [hn]
    exact ne_of_gt (Real.sqrt_pos.mpr (by norm_num))
  exact (c4_slow_path_formula [3, 4] [3, 4] rfl hne hne).1

/-! ## Theorems for claim C10 (zero-norm edge case) -/

/-- C10: if either vector has zero norm, the slow-path cosine computation
returns exactly 0, not the neutral 0.5 that the normalization alone would
give. -/
theorem c10_zero_norm (v1 v2 : List ℝ)
    (h : Real.sqrt (normSq v1) = 0 ∨ Real.sqrt (normSq v2) = 0) :
    cosineSimilarity v1 v2 = 0 ∧ cosineSimilarity v1 v2 ≠ 1 / 2 := by
  have hz : cosineSimilarity v1 v2 = 0 := by
    unfold cosineSimilarity
    rw [if_pos h]
  refine ⟨hz, ?_⟩
  rw [hz]
  norm_num

/-- C10 witness: the all-zero query vector against a unit vector yields
similarity exactly 0. -/
theorem c10_witness :
    cosineSimilarity [0, 0] [1, 0] = 0 ∧ cosineSimilarity [0, 0] [1, 0] ≠ 1 / 2 := by
  have hn : normSq [0, 0] = 0 := by
    simp only [normSq, List.map_cons, List.map_nil, List.sum_cons, List.sum_nil]
    norm_num
  exact c10_zero_norm [0, 0] [1, 0] (Or.inl (by rw [hn, Real.sqrt_zero]))

end AiTracker

namespace AiTracker

/-! ## Pipeline membership and bound lemmas -/

lemma fastRowSimilarity_bounds (d : Option ℝ) :
    0 ≤ fastRowSimilarity d ∧ fastRowSimilarity d ≤ 1 := by
  cases d with
  | none => simp [fastRowSimilarity]
  | some dist =>
    show 0 ≤ (if dist ≤ 2 then max 0 (min 1 (1 - dist)) else 1 / (1 + dist)) ∧
      (if dist ≤ 2 then max 0 (min 1 (1 - dist)) else 1 / (1 + dist)) ≤ 1
    by_cases h : dist ≤ 2
    · rw [if_pos h]
      exact ⟨le_max_left 0 _, max_le (by norm_num) (min_le_left 1 _)⟩
    · rw [if_neg h]
      push_neg at h
      have h3 : (0:ℝ) < 1 + dist := by linarith
      refine ⟨by positivity, ?_⟩
      rw [div_le_one h3]
      linarith

lemma favoriteBoost_bounds (b : Bool) (s : ℝ) (hs0 : 0 ≤ s) (hs1 : s ≤ 1) :
    0 ≤ favoriteBoost b s ∧ favoriteBoost b s ≤ 1 := by
  cases b with
  | false =>
    unfold favoriteBoost
    rw [if_neg Bool.false_ne_true]
    exact ⟨hs0, hs1⟩
  | true =>
    unfold favoriteBoost
    rw [if_pos rfl]
    exact ⟨le_min (by norm_num) (by linarith), min_le_left 1 _⟩

lemma mem_fastSearchResults_bounds (rows : List VecRow) (r : SearchResult)
    (h : r ∈ fastSearchResults rows) : 0 ≤ r.similarity ∧ r.similarity ≤ 1 := by
  unfold fastSearchResults at h
  obtain ⟨row, _, hrow⟩ := List.mem_map.mp h
  obtain ⟨h0, h1⟩ := fastRowSimilarity_bounds row.distance
  obtain ⟨hb0, hb1⟩ := favoriteBoost_bounds row.isFavorited _ h0 h1
  rw [← hrow]
  exact ⟨hb0, hb1⟩

lemma mem_slowRawResults_bounds (db : RagDb) (q : List ℝ) (r : SearchResult)
    (h : r ∈ slowRawResults db q) : 0 ≤ r.similarity ∧ r.similarity ≤ 1 := by
  unfold slowRawResults at h
  obtain ⟨p, _, hp⟩ := List.mem_filterMap.mp h
  unfold slowEntryResult at hp
  by_cases h1 : p.1.embedding = []
  · rw [if_pos h1] at hp
    exact absurd hp (by simp)
  · rw [if_neg h1] at hp
    by_cases h2 : p.1.embedding.length ≠ q.length
    · rw [if_pos h2] at hp
      exact absurd hp (by simp)
    · rw [if_neg h2] at hp
      obtain ⟨hc0, hc1⟩ := cosineSimilarity_bounds q p.1.embedding
      obtain ⟨hb0, hb1⟩ := favoriteBoost_bounds p.2.isFavorited _ hc0 hc1
      have := Option.some.inj hp
      rw [← this]
      exact ⟨hb0, hb1⟩

lemma mem_dedupStep {acc : List SearchResult} {r x : SearchResult}
    (h : x ∈ dedupStep acc r) : x ∈ acc ∨ x = r := by
  unfold dedupStep at h
  split at h
  · obtain ⟨a, ha, hfa⟩ := List.mem_map.mp h
    by_cases hc : a.id = r.id ∧ a.similarity < r.similarity
    · rw [if_pos hc] at hfa
      exact Or.inr hfa.symm
    · rw [if_neg hc] at hfa
      exact Or.inl (hfa ▸ ha)
  · rcases List.mem_append.mp h with h | h
    · exact Or.inl h
    · exact Or.inr (List.mem_singleton.mp h)

lemma mem_foldl_dedupStep {l : List SearchResult} :
    ∀ {acc x}, x ∈ List.foldl dedupStep acc l → x ∈ acc ∨ x ∈ l := by
  induction l with
  | nil => intro acc x h; exact Or.inl h
  | cons r rest ih =>
    intro acc x h
    rcases ih h with h1 | h1
    · rcases mem_dedupStep h1 with h2 | h2
      · exact Or.inl h2
      · exact Or.inr (h2 ▸ List.mem_cons_self r rest)
    · exact Or.inr (List.mem_cons_of_mem r h1)

lemma mem_dedupResults {l : List SearchResult} {x : SearchResult}
    (h : x ∈ dedupResults l) : x ∈ l := by
  rcases mem_foldl_dedupStep h with h1 | h1
  · exact absurd h1 (List.not_mem_nil x)
  · exact h1

lemma mem_sortBySimilarity {l : List SearchResult} {x : SearchResult} :
    x ∈ sortBySimilarity l ↔ x ∈ l :=
  (List.perm_insertionSort _ l).mem_iff

lemma mem_processFastRows_bounds (rows : List VecRow) (k : Nat) (r : SearchResult)
    (h : r ∈ processFastRows rows k) : 0 ≤ r.similarity ∧ r.similarity ≤ 1 := by
  unfold processFastRows at h
  have h1 := (List.take_sublist k _).subset h
  have h2 := mem_sortBySimilarity.mp h1
  exact mem_fastSearchResults_bounds rows r (mem_dedupResults h2)

lemma mem_searchWithPython_bounds (db : RagDb) (q : List ℝ) (k : Nat) (r : SearchResult)
    (h : r ∈ searchWithPython db q k) : 0 ≤ r.similarity ∧ r.similarity ≤ 1 := by
  unfold searchWithPython at h
  split at h
  · exact absurd h (List.not_mem_nil r)
  · have h1 := (List.take_sublist k _).subset h
    have h2 := mem_sortBySimilarity.mp h1
    have h3 := mem_dedupResults h2
    have h4 := (List.take_sublist k _).subset h3
    have h5 := mem_sortBySimilarity.mp h4
    exact mem_slowRawResults_bounds db q r h5

end AiTracker

namespace AiTracker

/-! ## Theorems for claim C2 (similarity bounds on both search paths) -/

/-- C2: every similarity score returned by either the sqlite-vec fast path
or the Python slow path lies in the closed unit interval, including after
the +0.2 favorited boost, for every database content (hence every indexed
corpus and every filter set) and every query vector. -/
theorem c2_similarity_bounds (db : RagDb) (q : List ℝ) (k : Nat) (r : SearchResult)
    (h : r ∈ searchWithSqliteVec db q k ∨ r ∈ searchWithPython db q k) :
    0 ≤ r.similarity ∧ r.similarity ≤ 1 := by
  rcases h with h | h
  · unfold searchWithSqliteVec at h
    split at h
    · exact mem_searchWithPython_bounds db q k r h
    · split at h
      · exact mem_searchWithPython_bounds db q k r h
      · split at h
        · exact mem_searchWithPython_bounds db q k r h
        · split at h
          · exact mem_searchWithPython_bounds db q k r h
          · exact mem_processFastRows_bounds db.knnRows k r h
  · exact mem_searchWithPython_bounds db q k r h

end AiTracker

namespace AiTracker

/-! ## Concrete evaluation helpers -/

lemma favoriteBoost_false (s : ℝ) : favoriteBoost false s = s := by
  unfold favoriteBoost
  rw [if_neg Bool.false_ne_true]

lemma normSq_pair (a b : ℝ) : normSq [a, b] = a * a + b * b := by
  simp only [normSq, List.map_cons, List.map_nil, List.sum_cons, List.sum_nil]
  ring

lemma dotProduct_pair (a b c d : ℝ) : dotProduct [a, b] [c, d] = a * c + b * d := by
  simp only [dotProduct, List.zipWith_cons_cons, List.zipWith_nil_right,
    List.sum_cons, List.sum_nil]
  ring

lemma cosine_e1_e1 : cosineSimilarity [1, 0] [1, 0] = 1 := by
  have hs : Real.sqrt (normSq [1, 0]) = 1 := by
    rw [normSq_pair]
    norm_num
  unfold cosineSimilarity
  rw [hs, dotProduct_pair, if_neg (by norm_num)]
  norm_num

lemma cosine_e1_34 : cosineSimilarity [1, 0] [3, 4] = 4 / 5 := by
  have hs1 : Real.sqrt (normSq [1, 0]) = 1 := by
    rw [normSq_pair]
    norm_num
  have hs2 : Real.sqrt (normSq [3, 4]) = 5 := by
    rw [normSq_pair]
    rw [show (3 * 3 + 4 * 4 : ℝ) = 5 ^ 2 by norm_num, Real.sqrt_sq (by norm_num)]
  unfold cosineSimilarity
  rw [hs1, hs2, dotProduct_pair, if_neg (by norm_num)]
  norm_num

lemma cosine_e1_e2 : cosineSimilarity [1, 0] [0, 1] = 1 / 2 := by
  have hs1 : Real.sqrt (normSq [1, 0]) = 1 := by
    rw [normSq_pair]
    norm_num
  have hs2 : Real.sqrt (normSq [0, 1]) = 1 := by
    rw [normSq_pair]
    norm_num
  unfold cosineSimilarity
  rw [hs1, hs2, dotProduct_pair, if_neg (by norm_num)]
  norm_num

lemma sortBySimilarity_nil : sortBySimilarity [] = [] := rfl

lemma sortBySimilarity_singleton (r : SearchResult) : sortBySimilarity [r] = [r] := rfl

lemma dedupResults_singleton (r : SearchResult) : dedupResults [r] = [r] := by
  unfold dedupResults dedupStep
  simp

lemma searchWithPython_single_unit :
    searchWithPython ⟨0, [], [], [(⟨1, [1, 0]⟩, ⟨1, false⟩)]⟩ [1, 0] 10 =
      [⟨1, 1, false⟩] := by
  have hraw : slowRawResults ⟨0, [], [], [(⟨1, [1, 0]⟩, ⟨1, false⟩)]⟩ [1, 0] =
      [⟨1, 1, false⟩] := by
    unfold slowRawResults slowEntryResult
    simp [cosine_e1_e1, favoriteBoost_false]
  have htake : List.take 10 [(⟨1, 1, false⟩ : SearchResult)] = [⟨1, 1, false⟩] :=
    List.take_of_length_le (by simp)
  unfold searchWithPython
  rw [if_neg (by simp)]
  rw [hraw, sortBySimilarity_singleton, htake, dedupResults_singleton,
    sortBySimilarity_singleton, htake]

end AiTracker

namespace AiTracker

/-- C2 witness: on a one-article corpus with embedding matching the query
exactly, the slow path returns that article with similarity 1, and the
bounds theorem applies to it. -/
theorem c2_witness :
    0 ≤ ({ id := 1, similarity := 1, isFavorited := false } : SearchResult).similarity ∧
    ({ id := 1, similarity := 1, isFavorited := false } : SearchResult).similarity ≤ 1 :=
  c2_similarity_bounds ⟨0, [], [], [(⟨1, [1, 0]⟩, ⟨1, false⟩)]⟩ [1, 0] 10 _
    (Or.inr (by rw [searchWithPython_single_unit]; exact List.mem_singleton.mpr rfl))

end AiTracker

namespace AiTracker

/-! ## Dimension-safety lemmas -/

lemma filterMap_eq_filterMap_filter {α β : Type} (f : α → Option β) (p : α → Bool)
    (h : ∀ x, p x = false → f x = none) :
    ∀ l : List α, l.filterMap f = (l.filter p).filterMap f := by
  intro l
  induction l with
  | nil => rfl
  | cons a t ih =>
    cases hp : p a with
    | false =>
      rw [List.filter_cons_of_neg (by simp [hp]), List.filterMap_cons_none (h a hp), ih]
    | true =>
      rw [List.filter_cons_of_pos (by simp [hp])]
      cases hfa : f a with
      | none => rw [List.filterMap_cons_none hfa, List.filterMap_cons_none hfa, ih]
      | some b => rw [List.filterMap_cons_some hfa, List.filterMap_cons_some hfa, ih]

lemma slowEntry_none_of_not_matching (q : List ℝ) (pr : EmbeddingRecord × ArticleRow)
    (h : matchingFilter q pr = false) : slowEntryResult q pr = none := by
  unfold matchingFilter at h
  unfold slowEntryResult
  by_cases h1 : pr.1.embedding = []
  · rw [if_pos h1]
  · rw [if_neg h1]
    rcases Bool.and_eq_false_iff.mp h with h2 | h2
    · exfalso
      apply h1
      simp only [Bool.not_eq_false'] at h2
      exact List.isEmpty_iff.mp h2
    · have hlen : pr.1.embedding.length ≠ q.length := by simpa using h2
      rw [if_pos hlen]

lemma slowRaw_matching (db : RagDb) (q : List ℝ) :
    slowRawResults db q = slowRawResults (matchingCorpus db q) q := by
  unfold slowRawResults matchingCorpus
  exact filterMap_eq_filterMap_filter (slowEntryResult q) (matchingFilter q)
    (slowEntry_none_of_not_matching q) db.corpus

lemma pipeline_of_nil (k : Nat) :
    (sortBySimilarity (dedupResults ((sortBySimilarity ([] : List SearchResult)).take k))).take k
      = [] := by
  rw [sortBySimilarity_nil, List.take_nil]
  rw [show dedupResults [] = [] from rfl, sortBySimilarity_nil, List.take_nil]

lemma searchWithPython_matching (db : RagDb) (q : List ℝ) (k : Nat) :
    searchWithPython db q k = searchWithPython (matchingCorpus db q) q k := by
  have hraw := slowRaw_matching db q
  unfold searchWithPython
  by_cases hc : db.corpus.isEmpty = true
  · have hc2 : (matchingCorpus db q).corpus.isEmpty = true := by
      unfold matchingCorpus
      rw [List.isEmpty_iff] at hc ⊢
      rw [hc]
      rfl
    rw [if_pos hc, if_pos hc2]
  · by_cases hc2 : (matchingCorpus db q).corpus.isEmpty = true
    · rw [if_neg hc, if_pos hc2]
      have hr0 : slowRawResults (matchingCorpus db q) q = [] := by
        unfold slowRawResults
        rw [List.isEmpty_iff.mp hc2]
        rfl
      rw [hraw, hr0, pipeline_of_nil]
    · rw [if_neg hc, if_neg hc2, hraw]

end AiTracker

namespace AiTracker

/-! ## Theorems for claim C5 (dimension safety) -/

/-- C5: when a sampled stored embedding exists, is non-empty and its
dimension differs from the query dimension, the fast path falls back to the
slow path for that call only (the backend-selection state is returned
unchanged by searchArticles); the slow path silently skips every stored
embedding whose dimension differs from the query dimension (and every empty
one): restricting the corpus to the matching entries changes neither the raw
similarity list nor the final result.  All embedded search functions are
total, so no input can crash them. -/
theorem c5_dimension_safety (s : RagState) (db : RagDb) (q : List ℝ) (k : Nat)
    (sample : EmbeddingRecord) (hs : db.allEmbeddings.head? = some sample)
    (hne : sample.embedding ≠ []) (hdim : q.length ≠ sample.embedding.length) :
    searchWithSqliteVec db q k = searchWithPython db q k ∧
    (q ≠ [] → s.useSqliteVec = true →
      searchArticles s db q k = (searchWithPython db q k, s)) ∧
    slowRawResults db q = slowRawResults (matchingCorpus db q) q ∧
    searchWithPython db q k = searchWithPython (matchingCorpus db q) q k := by
  have hfb : searchWithSqliteVec db q k = searchWithPython db q k := by
    unfold searchWithSqliteVec
    by_cases hv : db.vecCount = 0
    · rw [if_pos hv]
    · rw [if_neg hv, hs]
      dsimp only
      rw [if_neg hne, if_pos hdim]
  refine ⟨hfb, ?_, slowRaw_matching db q, searchWithPython_matching db q k⟩
  intro hq hflag
  unfold searchArticles
  rw [if_neg hq, if_pos hflag, hfb]

/-- C5 witness: a database whose first stored embedding has dimension 3
against a dimension-2 query; the fast path equals the slow path and the
state is unchanged. -/
theorem c5_witness :
    searchWithSqliteVec ⟨1, [⟨1, [1, 0, 0]⟩], [], []⟩ [1, 0] 5 =
      searchWithPython ⟨1, [⟨1, [1, 0, 0]⟩], [], []⟩ [1, 0] 5 ∧
    searchArticles ⟨true⟩ ⟨1, [⟨1, [1, 0, 0]⟩], [], []⟩ [1, 0] 5 =
      (searchWithPython ⟨1, [⟨1, [1, 0, 0]⟩], [], []⟩ [1, 0] 5, ⟨true⟩) := by
  have h := c5_dimension_safety ⟨true⟩ ⟨1, [⟨1, [1, 0, 0]⟩], [], []⟩ [1, 0] 5
    ⟨1, [1, 0, 0]⟩ rfl (by simp) (by simp)
  exact ⟨h.1, h.2.1 (by simp) rfl⟩

end AiTracker

namespace AiTracker

/-! ## De-duplication invariant lemmas -/

lemma dedupStep_inv {processed acc : List SearchResult} {r : SearchResult}
    (h : DedupInv processed acc) : DedupInv (processed ++ [r]) (dedupStep acc r) := by
  obtain ⟨hmem, hcover, hmax, hnodup⟩ := h
  unfold dedupStep
  by_cases hany : acc.any (fun x => x.id == r.id) = true
  · rw [if_pos hany]
    obtain ⟨x0, hx0, hx0id⟩ := List.any_eq_true.mp hany
    have hx0id : x0.id = r.id := by simpa using hx0id
    have hfid : ∀ x : SearchResult,
        (if x.id = r.id ∧ x.similarity < r.similarity then r else x).id = x.id := by
      intro x
      by_cases hc : x.id = r.id ∧ x.similarity < r.similarity
      · rw [if_pos hc, hc.1]
      · rw [if_neg hc]
    have hfsim : ∀ x : SearchResult, x.similarity ≤
        (if x.id = r.id ∧ x.similarity < r.similarity then r else x).similarity := by
      intro x
      by_cases hc : x.id = r.id ∧ x.similarity < r.similarity
      · rw [if_pos hc]
        exact le_of_lt hc.2
      · rw [if_neg hc]
    refine ⟨?_, ?_, ?_, ?_⟩
    · intro x hx
      obtain ⟨a, ha, hfa⟩ := List.mem_map.mp hx
      by_cases hc : a.id = r.id ∧ a.similarity < r.similarity
      · rw [if_pos hc] at hfa
        exact List.mem_append.mpr (Or.inr (hfa ▸ List.mem_singleton_self r))
      · rw [if_neg hc] at hfa
        exact List.mem_append.mpr (Or.inl (hfa ▸ hmem a ha))
    · intro y hy
      rcases List.mem_append.mp hy with hy | hy
      · obtain ⟨x, hx, hxid⟩ := hcover y hy
        refine ⟨_, List.mem_map_of_mem _ hx, ?_⟩
        rw [hfid x, hxid]
      · have hyr : y = r := List.mem_singleton.mp hy
        refine ⟨_, List.mem_map_of_mem _ hx0, ?_⟩
        rw [hfid x0, hx0id, hyr]
    · intro x hx y hy hid
      obtain ⟨a, ha, hfa⟩ := List.mem_map.mp hx
      have haid : x.id = a.id := by rw [← hfa, hfid a]
      have hasim : a.similarity ≤ x.similarity := by rw [← hfa]; exact hfsim a
      rcases List.mem_append.mp hy with hy | hy
      · exact le_trans (hmax a ha y hy (by rw [hid, haid])) hasim
      · have hyr : y = r := List.mem_singleton.mp hy
        by_cases hc : a.id = r.id ∧ a.similarity < r.similarity
        · rw [hyr, ← hfa, if_pos hc]
        · have haid2 : a.id = r.id := by rw [← haid, ← hid, hyr]
          rw [hyr, ← hfa, if_neg hc]
          push_neg at hc
          exact hc haid2
    · have : (List.map SearchResult.id
          (acc.map (fun x => if x.id = r.id ∧ x.similarity < r.similarity then r else x)))
          = acc.map SearchResult.id := by
        rw [List.map_map]
        exact List.map_congr_left (fun x _ => hfid x)
      rw [this]
      exact hnodup
  · rw [if_neg hany]
    have hnotin : ∀ x ∈ acc, x.id ≠ r.id := by
      intro x hx
      intro hid
      exact hany (List.any_eq_true.mpr ⟨x, hx, by simpa using hid⟩)
    refine ⟨?_, ?_, ?_, ?_⟩
    · intro x hx
      rcases List.mem_append.mp hx with hx | hx
      · exact List.mem_append.mpr (Or.inl (hmem x hx))
      · exact List.mem_append.mpr (Or.inr hx)
    · intro y hy
      rcases List.mem_append.mp hy with hy | hy
      · obtain ⟨x, hx, hxid⟩ := hcover y hy
        exact ⟨x, List.mem_append.mpr (Or.inl hx), hxid⟩
      · exact ⟨r, List.mem_append.mpr (Or.inr (List.mem_singleton.mpr rfl)),
          by rw [List.mem_singleton.mp hy]⟩
    · intro x hx y hy hid
      rcases List.mem_append.mp hx with hx | hx
      · rcases List.mem_append.mp hy with hy | hy
        · exact hmax x hx y hy hid
        · exfalso
          exact hnotin x hx (by rw [← List.mem_singleton.mp hy, hid])
      · have hxr : x = r := List.mem_singleton.mp hx
        subst hxr
        rcases List.mem_append.mp hy with hy | hy
        · exfalso
          obtain ⟨a, ha, haid⟩ := hcover y hy
          exact hnotin a ha (by rw [haid, hid])
        · rw [List.mem_singleton.mp hy]
    · rw [List.map_append]
      refine List.Nodup.append hnodup (by simp) ?_
      intro i hi hj
      simp only [List.map_cons, List.map_nil, List.mem_singleton] at hj
      obtain ⟨a, ha, haid⟩ := List.mem_map.mp hi
      exact hnotin a ha (by rw [haid, hj])

lemma dedupFold_inv :
    ∀ (l processed acc : List SearchResult), DedupInv processed acc →
      DedupInv (processed ++ l) (List.foldl dedupStep acc l) := by
  intro l
  induction l with
  | nil =>
    intro processed acc h
    simpa using h
  | cons r t ih =>
    intro processed acc h
    rw [List.foldl_cons]
    have h2 := ih (processed ++ [r]) (dedupStep acc r) (dedupStep_inv h)
    rwa [List.append_assoc, List.singleton_append] at h2

lemma dedupResults_inv (l : List SearchResult) : DedupInv l (dedupResults l) := by
  have h0 : DedupInv [] [] := by
    refine ⟨?_, ?_, ?_, ?_⟩ <;> simp
  have := dedupFold_inv l [] [] h0
  simpa [dedupResults] using this

lemma dedupResults_nodup (l : List SearchResult) :
    ((dedupResults l).map SearchResult.id).Nodup := (dedupResults_inv l).2.2.2

lemma dedupResults_max (l : List SearchResult) :
    ∀ x ∈ dedupResults l, ∀ y ∈ l, y.id = x.id → y.similarity ≤ x.similarity :=
  (dedupResults_inv l).2.2.1

/-! ## Sorting lemmas -/

lemma sortBySimilarity_sorted (l : List SearchResult) : SortedBySim (sortBySimilarity l) := by
  unfold sortBySimilarity SortedBySim
  haveI : IsTotal SearchResult (fun a b => b.similarity ≤ a.similarity) :=
    ⟨fun a b => le_total b.similarity a.similarity⟩
  haveI : IsTrans SearchResult (fun a b => b.similarity ≤ a.similarity) :=
    ⟨fun _ _ _ hab hbc => le_trans hbc hab⟩
  exact List.sorted_insertionSort _ l

lemma sortBySimilarity_nodup_ids (l : List SearchResult)
    (h : (l.map SearchResult.id).Nodup) :
    ((sortBySimilarity l).map SearchResult.id).Nodup := by
  have hperm : List.Perm ((sortBySimilarity l).map SearchResult.id) (l.map SearchResult.id) :=
    (List.perm_insertionSort _ l).map SearchResult.id
  exact hperm.nodup_iff.mpr h

lemma take_nodup_ids (l : List SearchResult) (k : Nat)
    (h : (l.map SearchResult.id).Nodup) :
    ((l.take k).map SearchResult.id).Nodup :=
  List.Nodup.sublist ((List.take_sublist k l).map SearchResult.id) h

lemma sorted_take (l : List SearchResult) (k : Nat) (h : SortedBySim l) :
    SortedBySim (l.take k) :=
  List.Pairwise.sublist (List.take_sublist k l) h

lemma sorted_take_drop (l : List SearchResult) (k : Nat) (hs : SortedBySim l) :
    ∀ a ∈ l.take k, ∀ b ∈ l.drop k, b.similarity ≤ a.similarity := by
  have hsplit := List.take_append_drop k l
  rw [← hsplit] at hs
  exact (List.pairwise_append.mp hs).2.2

end AiTracker

namespace AiTracker

/-! ## Slow-path pipeline lemmas -/

lemma searchWithPython_cases (db : RagDb) (q : List ℝ) (k : Nat) :
    searchWithPython db q k = [] ∨
    searchWithPython db q k =
      (sortBySimilarity (dedupResults
        ((sortBySimilarity (slowRawResults db q)).take k))).take k := by
  unfold searchWithPython
  split
  · exact Or.inl rfl
  · exact Or.inr rfl

lemma mem_searchWithPython_max (db : RagDb) (q : List ℝ) (k : Nat) (r : SearchResult)
    (h : r ∈ searchWithPython db q k) :
    r ∈ slowRawResults db q ∧
    ∀ x ∈ slowRawResults db q, x.id = r.id → x.similarity ≤ r.similarity := by
  rcases searchWithPython_cases db q k with hc | hc
  · rw [hc] at h
    exact absurd h (List.not_mem_nil r)
  · rw [hc] at h
    have hr1 := (List.take_sublist k _).subset h
    have hr2 := mem_sortBySimilarity.mp hr1
    have hr3 := (dedupResults_inv _).1 r hr2
    have hr4 := (List.take_sublist k _).subset hr3
    have hr5 := mem_sortBySimilarity.mp hr4
    refine ⟨hr5, ?_⟩
    intro x hx hid
    have hx1 : x ∈ sortBySimilarity (slowRawResults db q) := mem_sortBySimilarity.mpr hx
    rw [← List.take_append_drop k (sortBySimilarity (slowRawResults db q))] at hx1
    rcases List.mem_append.mp hx1 with hx2 | hx2
    · exact dedupResults_max _ r hr2 x hx2 hid
    · exact sorted_take_drop _ k (sortBySimilarity_sorted _) r hr3 x hx2

lemma searchWithPython_nodup_ids (db : RagDb) (q : List ℝ) (k : Nat) :
    ((searchWithPython db q k).map SearchResult.id).Nodup := by
  rcases searchWithPython_cases db q k with hc | hc
  · rw [hc]
    simp
  · rw [hc]
    exact take_nodup_ids _ k (sortBySimilarity_nodup_ids _ (dedupResults_nodup _))

lemma searchWithPython_sorted (db : RagDb) (q : List ℝ) (k : Nat) :
    SortedBySim (searchWithPython db q k) := by
  rcases searchWithPython_cases db q k with hc | hc
  · rw [hc]
    exact List.Pairwise.nil
  · rw [hc]
    exact sorted_take _ k (sortBySimilarity_sorted _)

lemma searchWithPython_length_le (db : RagDb) (q : List ℝ) (k : Nat) :
    (searchWithPython db q k).length ≤ k := by
  rcases searchWithPython_cases db q k with hc | hc
  · rw [hc]
    simp
  · rw [hc, List.length_take]
    exact min_le_left k _

end AiTracker

namespace AiTracker

/-! ## Theorems for claim C3 (de-duplication and truncation) -/

/-- C3 amended: on the fast path, the final list is exactly the first topK
elements after boosting, de-duplication and descending sorting have all been
applied, each article id appears at most once with the highest similarity
among its raw instances; the slow path also returns each id at most once
with the highest similarity among all its raw instances and in descending
similarity order, but it truncates the sorted raw list to topK BEFORE
de-duplicating, so when duplicate ids occur inside the first topK it can
return fewer than topK distinct articles even though more are available. -/
theorem c3_amended (rows : List VecRow) (db : RagDb) (q : List ℝ) (k : Nat) :
    processFastRows rows k =
      (sortBySimilarity (dedupResults (fastSearchResults rows))).take k ∧
    ((processFastRows rows k).map SearchResult.id).Nodup ∧
    ((searchWithPython db q k).map SearchResult.id).Nodup ∧
    SortedBySim (processFastRows rows k) ∧
    SortedBySim (searchWithPython db q k) ∧
    (processFastRows rows k).length ≤ k ∧
    (searchWithPython db q k).length ≤ k ∧
    (∀ r ∈ processFastRows rows k, r ∈ fastSearchResults rows ∧
      ∀ x ∈ fastSearchResults rows, x.id = r.id → x.similarity ≤ r.similarity) ∧
    (∀ r ∈ searchWithPython db q k, r ∈ slowRawResults db q ∧
      ∀ x ∈ slowRawResults db q, x.id = r.id → x.similarity ≤ r.similarity) := by
  refine ⟨rfl, ?_, searchWithPython_nodup_ids db q k, ?_, searchWithPython_sorted db q k,
    ?_, searchWithPython_length_le db q k, ?_, mem_searchWithPython_max db q k⟩
  · exact take_nodup_ids _ k (sortBySimilarity_nodup_ids _ (dedupResults_nodup _))
  · exact sorted_take _ k (sortBySimilarity_sorted _)
  · rw [show processFastRows rows k =
      (sortBySimilarity (dedupResults (fastSearchResults rows))).take k from rfl,
      List.length_take]
    exact min_le_left k _
  · intro r hr
    have hr1 := (List.take_sublist k _).subset hr
    have hr2 := mem_sortBySimilarity.mp hr1
    exact ⟨(dedupResults_inv _).1 r hr2, fun x hx hid => dedupResults_max _ r hr2 x hx hid⟩

end AiTracker

namespace AiTracker

/-! ## Concrete three-entry corpus evaluation (two instances of article 1) -/

lemma entryC1 : slowEntryResult [1, 0] (⟨1, [1, 0]⟩, ⟨1, false⟩) =
    some ⟨1, 1, false⟩ := by
  unfold slowEntryResult
  rw [if_neg (by simp), if_neg (by simp)]
  rw [cosine_e1_e1, favoriteBoost_false]

lemma entryC2 : slowEntryResult [1, 0] (⟨1, [3, 4]⟩, ⟨1, false⟩) =
    some ⟨1, 4 / 5, false⟩ := by
  unfold slowEntryResult
  rw [if_neg (by simp), if_neg (by simp)]
  rw [cosine_e1_34, favoriteBoost_false]

lemma entryC3 : slowEntryResult [1, 0] (⟨2, [0, 1]⟩, ⟨2, false⟩) =
    some ⟨2, 1 / 2, false⟩ := by
  unfold slowEntryResult
  rw [if_neg (by simp), if_neg (by simp)]
  rw [cosine_e1_e2, favoriteBoost_false]

lemma slowRaw_evalC :
    slowRawResults ⟨0, [], [],
      [(⟨1, [1, 0]⟩, ⟨1, false⟩), (⟨1, [3, 4]⟩, ⟨1, false⟩), (⟨2, [0, 1]⟩, ⟨2, false⟩)]⟩
      [1, 0] = [⟨1, 1, false⟩, ⟨1, 4 / 5, false⟩, ⟨2, 1 / 2, false⟩] := by
  unfold slowRawResults
  rw [show (RagDb.corpus ⟨0, [], [],
      [(⟨1, [1, 0]⟩, ⟨1, false⟩), (⟨1, [3, 4]⟩, ⟨1, false⟩), (⟨2, [0, 1]⟩, ⟨2, false⟩)]⟩) =
      [(⟨1, [1, 0]⟩, ⟨1, false⟩), (⟨1, [3, 4]⟩, ⟨1, false⟩), (⟨2, [0, 1]⟩, ⟨2, false⟩)] from rfl]
  rw [List.filterMap_cons_some entryC1, List.filterMap_cons_some entryC2,
    List.filterMap_cons_some entryC3, List.filterMap_nil]

lemma sort_evalC3 :
    sortBySimilarity [⟨1, 1, false⟩, ⟨1, 4 / 5, false⟩, ⟨2, 1 / 2, false⟩] =
      [⟨1, 1, false⟩, ⟨1, 4 / 5, false⟩, ⟨2, 1 / 2, false⟩] := by
  simp only [sortBySimilarity, List.insertionSort, List.orderedInsert]
  norm_num

lemma sort_evalC2 :
    sortBySimilarity [⟨1, 1, false⟩, ⟨2, 1 / 2, false⟩] =
      [⟨1, 1, false⟩, ⟨2, 1 / 2, false⟩] := by
  simp only [sortBySimilarity, List.insertionSort, List.orderedInsert]
  norm_num

lemma dedupStepC1 : dedupStep [] (⟨1, 1, false⟩ : SearchResult) = [⟨1, 1, false⟩] := by
  unfold dedupStep
  rw [if_neg (by simp)]
  rfl

lemma dedupStepC2 :
    dedupStep [⟨1, 1, false⟩] (⟨1, 4 / 5, false⟩ : SearchResult) = [⟨1, 1, false⟩] := by
  unfold dedupStep
  rw [if_pos (by simp)]
  simp only [List.map_cons, List.map_nil]
  rw [if_neg (by norm_num)]

lemma dedupStepC3 :
    dedupStep [⟨1, 1, false⟩] (⟨2, 1 / 2, false⟩ : SearchResult) =
      [⟨1, 1, false⟩, ⟨2, 1 / 2, false⟩] := by
  unfold dedupStep
  rw [if_neg (by simp)]
  rfl

lemma dedup_evalC2 :
    dedupResults [⟨1, 1, false⟩, ⟨1, 4 / 5, false⟩] = [⟨1, 1, false⟩] := by
  unfold dedupResults
  rw [List.foldl_cons, List.foldl_cons, List.foldl_nil, dedupStepC1, dedupStepC2]

lemma dedup_evalC3 :
    dedupResults [⟨1, 1, false⟩, ⟨1, 4 / 5, false⟩, ⟨2, 1 / 2, false⟩] =
      [⟨1, 1, false⟩, ⟨2, 1 / 2, false⟩] := by
  unfold dedupResults
  rw [List.foldl_cons, List.foldl_cons, List.foldl_cons, List.foldl_nil,
    dedupStepC1, dedupStepC2, dedupStepC3]

lemma searchWithPython_evalC :
    searchWithPython ⟨0, [], [],
      [(⟨1, [1, 0]⟩, ⟨1, false⟩), (⟨1, [3, 4]⟩, ⟨1, false⟩), (⟨2, [0, 1]⟩, ⟨2, false⟩)]⟩
      [1, 0] 2 = [⟨1, 1, false⟩] := by
  unfold searchWithPython
  rw [if_neg (by simp)]
  rw [slowRaw_evalC, sort_evalC3]
  rw [show List.take 2 [(⟨1, 1, false⟩ : SearchResult), ⟨1, 4 / 5, false⟩, ⟨2, 1 / 2, false⟩]
      = [⟨1, 1, false⟩, ⟨1, 4 / 5, false⟩] from rfl]
  rw [dedup_evalC2, sortBySimilarity_singleton]
  rfl

lemma specDedupThenTruncate_evalC :
    specDedupThenTruncate ⟨0, [], [],
      [(⟨1, [1, 0]⟩, ⟨1, false⟩), (⟨1, [3, 4]⟩, ⟨1, false⟩), (⟨2, [0, 1]⟩, ⟨2, false⟩)]⟩
      [1, 0] 2 = [⟨1, 1, false⟩, ⟨2, 1 / 2, false⟩] := by
  unfold specDedupThenTruncate
  rw [slowRaw_evalC, dedup_evalC3, sort_evalC2]
  rfl

end AiTracker

namespace AiTracker

/-- C3 counterexample: with topK = 2 and a corpus whose raw slow-path
results are article 1 at similarity 1, article 1 again at 0.8 and article 2
at 0.5, the slow path returns only article 1 (the pre-deduplication
truncation discards article 2), while applying truncation after
de-duplication as the claim states would return both articles. -/
theorem c3_counterexample :
    searchWithPython ⟨0, [], [],
      [(⟨1, [1, 0]⟩, ⟨1, false⟩), (⟨1, [3, 4]⟩, ⟨1, false⟩), (⟨2, [0, 1]⟩, ⟨2, false⟩)]⟩
      [1, 0] 2 = [⟨1, 1, false⟩] ∧
    specDedupThenTruncate ⟨0, [], [],
      [(⟨1, [1, 0]⟩, ⟨1, false⟩), (⟨1, [3, 4]⟩, ⟨1, false⟩), (⟨2, [0, 1]⟩, ⟨2, false⟩)]⟩
      [1, 0] 2 = [⟨1, 1, false⟩, ⟨2, 1 / 2, false⟩] ∧
    searchWithPython ⟨0, [], [],
      [(⟨1, [1, 0]⟩, ⟨1, false⟩), (⟨1, [3, 4]⟩, ⟨1, false⟩), (⟨2, [0, 1]⟩, ⟨2, false⟩)]⟩
      [1, 0] 2 ≠ specDedupThenTruncate ⟨0, [], [],
      [(⟨1, [1, 0]⟩, ⟨1, false⟩), (⟨1, [3, 4]⟩, ⟨1, false⟩), (⟨2, [0, 1]⟩, ⟨2, false⟩)]⟩
      [1, 0] 2 := by
  refine ⟨searchWithPython_evalC, specDedupThenTruncate_evalC, ?_⟩
  rw [searchWithPython_evalC, specDedupThenTruncate_evalC]
  simp

/-- C3 witness: the amended theorem applied to the same concrete corpus: the
returned ids are duplicate-free, and the raw instance of article 1 with
similarity 0.8 is dominated by the returned instance with similarity 1. -/
theorem c3_witness :
    ((searchWithPython ⟨0, [], [],
      [(⟨1, [1, 0]⟩, ⟨1, false⟩), (⟨1, [3, 4]⟩, ⟨1, false⟩), (⟨2, [0, 1]⟩, ⟨2, false⟩)]⟩
      [1, 0] 2).map SearchResult.id).Nodup ∧
    (⟨1, 4 / 5, false⟩ : SearchResult).similarity ≤
      (⟨1, 1, false⟩ : SearchResult).similarity := by
  have h := c3_amended [] ⟨0, [], [],
    [(⟨1, [1, 0]⟩, ⟨1, false⟩), (⟨1, [3, 4]⟩, ⟨1, false⟩), (⟨2, [0, 1]⟩, ⟨2, false⟩)]⟩
    [1, 0] 2
  refine ⟨h.2.2.1, ?_⟩
  have hmem : (⟨1, 1, false⟩ : SearchResult) ∈ searchWithPython ⟨0, [], [],
      [(⟨1, [1, 0]⟩, ⟨1, false⟩), (⟨1, [3, 4]⟩, ⟨1, false⟩), (⟨2, [0, 1]⟩, ⟨2, false⟩)]⟩
      [1, 0] 2 := by
    rw [searchWithPython_evalC]
    exact List.mem_singleton.mpr rfl
  have hraw2 : (⟨1, 4 / 5, false⟩ : SearchResult) ∈ slowRawResults ⟨0, [], [],
      [(⟨1, [1, 0]⟩, ⟨1, false⟩), (⟨1, [3, 4]⟩, ⟨1, false⟩), (⟨2, [0, 1]⟩, ⟨2, false⟩)]⟩
      [1, 0] := by
    rw [slowRaw_evalC]
    simp
  exact (h.2.2.2.2.2.2.2.2 ⟨1, 1, false⟩ hmem).2 ⟨1, 4 / 5, false⟩ hraw2 rfl

end AiTracker

namespace AiTracker

/-! ## Theorems for claim C6 (mutual exclusion of collection tasks) -/

/-- C6: the code evaluated at the failing interleaving.  The emptiness check
and the registration of the new task are two separate lock-protected
actions with the database insert between them outside any lock, so in the
schedule check0, check1, create0, register0, create1, register1 both calls
pass the empty check before either registers: neither call is rejected and
two tasks end in the running state.  The final conjunct shows the intended
behavior when the calls are serialized: the second call is rejected. -/
theorem c6_code_bug_trace :
    (runSched initTwoCalls [false, true, false, false, true, true]).c0.rejected = false ∧
    (runSched initTwoCalls [false, true, false, false, true, true]).c1.rejected = false ∧
    runningCount (runSched initTwoCalls [false, true, false, false, true, true]).g = 2 ∧
    (runSched initTwoCalls [false, true, false, false, true, true]).g.runningTasks.length = 2 ∧
    (runSched initTwoCalls [false, false, false, true]).c1.rejected = true := by
  decide

end AiTracker

namespace AiTracker

/-! ## Enrichment lemmas -/

lemma processedCount_cons (q : Nat × ArticleRec) (l : List (Nat × ArticleRec)) :
    processedCount (q :: l) = (if q.2.isProcessed then 1 else 0) + processedCount l := by
  unfold processedCount
  rw [List.filter_cons]
  by_cases hq : q.2.isProcessed = true
  · rw [if_pos hq, if_pos hq, List.length_cons]
    omega
  · rw [if_neg hq, if_neg hq]
    omega

lemma updateArticle_keys (i : Nat) (a : ArticleRec) :
    ∀ store : List (Nat × ArticleRec),
      (updateArticle store i a).map Prod.fst = store.map Prod.fst := by
  intro store
  induction store with
  | nil => rfl
  | cons p rest ih =>
    simp only [updateArticle]
    cases hp : (p.1 == i) with
    | true =>
      rw [if_pos rfl]
      simp only [List.map_cons]
      rw [show p.1 = i from by simpa using hp]
    | false =>
      rw [if_neg (by simp)]
      simp only [List.map_cons, ih]

lemma update_preserves_processed (i : Nat) (anew aold : ArticleRec)
    (hold : aold.isProcessed = false) :
    ∀ store : List (Nat × ArticleRec), lookupArticle store i = some aold →
      ∀ p ∈ store, p.2.isProcessed = true → p ∈ updateArticle store i anew := by
  intro store
  induction store with
  | nil =>
    intro hlk
    exact absurd hlk (by simp [lookupArticle])
  | cons q rest ih =>
    intro hlk p hp hproc
    simp only [updateArticle]
    simp only [lookupArticle] at hlk
    cases hq : (q.1 == i) with
    | true =>
      rw [hq, if_pos rfl] at hlk
      rw [if_pos (hq ▸ rfl)]
      have hq2 : aold = q.2 := (Option.some.inj hlk).symm
      rcases List.mem_cons.mp hp with hp | hp
      · exfalso
        rw [hp, ← hq2, hold] at hproc
        exact Bool.false_ne_true hproc
      · exact List.mem_cons_of_mem _ hp
    | false =>
      rw [hq, if_neg (by simp)] at hlk
      rw [if_neg (by simp)]
      rcases List.mem_cons.mp hp with hp | hp
      · exact hp ▸ List.mem_cons_self _ _
      · exact List.mem_cons_of_mem _ (ih hlk p hp hproc)

lemma update_count (i : Nat) (anew aold : ArticleRec)
    (hnew : anew.isProcessed = true) (hold : aold.isProcessed = false) :
    ∀ store : List (Nat × ArticleRec), lookupArticle store i = some aold →
      processedCount (updateArticle store i anew) = processedCount store + 1 := by
  intro store
  induction store with
  | nil =>
    intro hlk
    exact absurd hlk (by simp [lookupArticle])
  | cons q rest ih =>
    intro hlk
    simp only [updateArticle]
    simp only [lookupArticle] at hlk
    cases hq : (q.1 == i) with
    | true =>
      rw [hq, if_pos rfl] at hlk
      rw [if_pos (hq ▸ rfl)]
      have hq2 : aold = q.2 := (Option.some.inj hlk).symm
      rw [processedCount_cons, processedCount_cons]
      rw [show ((i, anew) : Nat × ArticleRec).2 = anew from rfl, if_pos hnew]
      rw [if_neg (by rw [← hq2, hold]; exact Bool.false_ne_true)]
      omega
    | false =>
      rw [hq, if_neg (by simp)] at hlk
      rw [if_neg (by simp)]
      rw [processedCount_cons, processedCount_cons, ih hlk]
      omega

lemma analyzeSingle_spec (f : AnalysisInput → Option AnalysisResult)
    (store : List (Nat × ArticleRec)) (i : Nat) :
    ((analyzeSingleById f store i).1.map Prod.fst = store.map Prod.fst) ∧
    (∀ p ∈ store, p.2.isProcessed = true → p ∈ (analyzeSingleById f store i).1) ∧
    (processedCount (analyzeSingleById f store i).1 =
      processedCount store + (if (analyzeSingleById f store i).2 then 1 else 0)) := by
  unfold analyzeSingleById
  cases hlk : lookupArticle store i with
  | none => exact ⟨rfl, fun p hp _ => hp, by simp⟩
  | some a =>
    dsimp only
    by_cases hap : a.isProcessed = true
    · rw [if_pos hap]
      exact ⟨rfl, fun p hp _ => hp, by simp⟩
    · rw [if_neg hap]
      have ha : a.isProcessed = false := by
        revert hap
        cases a.isProcessed <;> simp
      cases hf : f (analysisInput a) with
      | none => exact ⟨rfl, fun p hp _ => hp, by simp⟩
      | some r =>
        dsimp only
        refine ⟨updateArticle_keys i _ store, ?_, ?_⟩
        · intro p hp hproc
          exact update_preserves_processed i (applyAnalysis a r) a ha store hlk p hp hproc
        · rw [if_pos rfl]
          exact update_count i (applyAnalysis a r) a rfl ha store hlk

lemma analyzeFold_spec (f : AnalysisInput → Option AnalysisResult) :
    ∀ (ids : List Nat) (store : List (Nat × ArticleRec)) (n : Nat),
    ((ids.foldl (analyzeFoldStep f) (store, n)).1.map Prod.fst = store.map Prod.fst) ∧
    (∀ p ∈ store, p.2.isProcessed = true → p ∈ (ids.foldl (analyzeFoldStep f) (store, n)).1) ∧
    ((ids.foldl (analyzeFoldStep f) (store, n)).2 + processedCount store =
      n + processedCount (ids.foldl (analyzeFoldStep f) (store, n)).1) := by
  intro ids
  induction ids with
  | nil =>
    intro store n
    exact ⟨rfl, fun p hp _ => hp, by simp [Nat.add_comm]⟩
  | cons i t ih =>
    intro store n
    rw [List.foldl_cons]
    obtain ⟨hk1, hm1, hc1⟩ := analyzeSingle_spec f store i
    rw [show analyzeFoldStep f (store, n) i =
        ((analyzeSingleById f store i).1,
         if (analyzeSingleById f store i).2 then n + 1 else n) from rfl]
    have hm : (if (analyzeSingleById f store i).2 then n + 1 else n) =
        n + (if (analyzeSingleById f store i).2 then 1 else 0) := by
      by_cases hb : (analyzeSingleById f store i).2 = true
      · rw [if_pos hb, if_pos hb]
      · rw [if_neg hb, if_neg hb]
        omega
    obtain ⟨hk2, hm2, hc2⟩ := ih (analyzeSingleById f store i).1
      (if (analyzeSingleById f store i).2 then n + 1 else n)
    refine ⟨by rw [hk2, hk1], ?_, ?_⟩
    · intro p hp hproc
      exact hm2 p (hm1 p hp hproc) hproc
    · omega

end AiTracker

namespace AiTracker

/-! ## Theorems for claim C9 (at-most-once enrichment) -/

/-- C9: for every store, analyzer and id list, the by-ids analysis keeps
the set and order of article rows (keys unchanged), never modifies an
already-processed row (it is skipped without error and survives
identically), and the returned count equals exactly the number of articles
that transitioned from unprocessed to processed during this call
(analyzedCount + processed-before = processed-after). -/
theorem c9_at_most_once (f : AnalysisInput → Option AnalysisResult)
    (store : List (Nat × ArticleRec)) (ids : List Nat) :
    ((analyzeArticlesByIds f store ids).1.map Prod.fst = store.map Prod.fst) ∧
    (∀ p ∈ store, p.2.isProcessed = true → p ∈ (analyzeArticlesByIds f store ids).1) ∧
    ((analyzeArticlesByIds f store ids).2 + processedCount store =
      processedCount (analyzeArticlesByIds f store ids).1) := by
  unfold analyzeArticlesByIds
  have h := analyzeFold_spec f ids store 0
  refine ⟨h.1, h.2.1, ?_⟩
  have := h.2.2
  omega

/-- C9 witness: a store with one unprocessed and one processed article,
analyzed at ids [1, 2, 3] (id 3 absent): the count accounts exactly for the
new transitions and the processed row survives untouched. -/
theorem c9_witness :
    ((analyzeArticlesByIds (fun _ => some ⟨some "s", none, none, none, none, none⟩)
        [(1, ⟨"t1", "c1", "src", none, false, none, none, none, none, none, none⟩),
         (2, ⟨"t2", "c2", "src", none, true, none, none, none, none, none, none⟩)]
        [1, 2, 3]).2 +
      processedCount
        [(1, ⟨"t1", "c1", "src", none, false, none, none, none, none, none, none⟩),
         (2, ⟨"t2", "c2", "src", none, true, none, none, none, none, none, none⟩)] =
      processedCount (analyzeArticlesByIds
        (fun _ => some ⟨some "s", none, none, none, none, none⟩)
        [(1, ⟨"t1", "c1", "src", none, false, none, none, none, none, none, none⟩),
         (2, ⟨"t2", "c2", "src", none, true, none, none, none, none, none, none⟩)]
        [1, 2, 3]).1) ∧
    ((2, (⟨"t2", "c2", "src", none, true, none, none, none, none, none, none⟩ : ArticleRec)) ∈
      (analyzeArticlesByIds (fun _ => some ⟨some "s", none, none, none, none, none⟩)
        [(1, ⟨"t1", "c1", "src", none, false, none, none, none, none, none, none⟩),
         (2, ⟨"t2", "c2", "src", none, true, none, none, none, none, none, none⟩)]
        [1, 2, 3]).1) := by
  have h := c9_at_most_once (fun _ => some ⟨some "s", none, none, none, none, none⟩)
    [(1, ⟨"t1", "c1", "src", none, false, none, none, none, none, none, none⟩),
     (2, ⟨"t2", "c2", "src", none, true, none, none, none, none, none, none⟩)]
    [1, 2, 3]
  refine ⟨h.2.2, ?_⟩
  exact h.2.1 _ (List.mem_cons_of_mem _ (List.mem_cons_self _ _)) rfl

end AiTracker
